import Mathlib

/-!
Verification development for the data-cleaning utility in `titanic_utils.py`.

The module defines three functions over a pandas DataFrame:
  * `clean_nan_values df` — orchestrator: finds the columns with missing
    values, classifies them, drops rows for the lightly-affected columns,
    returns `(df, replacing_nans)`;
  * `id_nan_columns df columns len_df max_nans=0.05` — classifier whose loop
    iterates over the free name `colummns_wnan` (a local of
    `clean_nan_values`, visible in no scope of `id_nan_columns`);
  * `drop_cols df cols len_df` — for each column in order, counts the live
    missing values, prints a report line, and drops the rows where that
    column is missing.

Shallow embedding: a DataFrame is a list of column names together with a
list of rows; a cell is `Option Int` and a missing value (NaN) is `none`.
Python floats are idealised as `Rat`; Python exceptions are modelled with
`Except PyError`.  `round(x, 3)` is round-half-to-even at three decimals,
as in Python.
-/

set_option autoImplicit false

namespace TitanicUtils

/-- Errors a call can raise.  `keyError` models pandas/`KeyError` when a
referenced column is absent (the spec's `ColumnNotFound`); `nameError`
models Python's `NameError` for an unresolvable free name; `typeError`
models iterating a non-sequence. -/
inductive PyError where
  | nameError
  | keyError
  | typeError
  deriving DecidableEq, Repr

/-- A DataFrame: ordered named columns and a list of rows; each row is a
list of nullable cells, `none` standing for NaN. -/
structure Table where
  cols : List String
  rows : List (List (Option Int))
  deriving DecidableEq, Repr

/-- Position of the first column named `c`, as pandas label lookup does on
a uniquely-named frame; `none` when no column has that name. -/
def colIndex : List String → String → Option Nat
  | [], _ => none
  | x :: rest, c => if x = c then some 0 else (colIndex rest c).map (fun i => i + 1)

/-- Whether a cell fetched by `List.get?` exists and is missing (NaN). -/
def isNoneCell : Option (Option Int) → Bool
  | some none => true
  | _ => false

/-- `rowMissing colNames c r` — whether row `r` holds a missing value in the
column named `c`, columns being labelled positionally by `colNames`. -/
def rowMissing (colNames : List String) (c : String) (r : List (Option Int)) : Bool :=
  match colIndex colNames c with
  | none => false
  | some i => isNoneCell (r.get? i)

/-- `df[c].isna().sum()` — the number of rows currently missing in column
`c`; `KeyError` when `c` is not a column of `t`. -/
def isnaSum (t : Table) (c : String) : Except PyError Nat :=
  match colIndex t.cols c with
  | none => .error .keyError
  | some _ => .ok (t.rows.filter (fun r => rowMissing t.cols c r)).length

/-- `df.dropna(subset=c, inplace=True)` — removes every row missing in
column `c`; `KeyError` when `c` is not a column of `t`. -/
def dropna (t : Table) (c : String) : Except PyError Table :=
  match colIndex t.cols c with
  | none => .error .keyError
  | some _ => .ok ⟨t.cols, t.rows.filter (fun r => !(rowMissing t.cols c r))⟩

/-- `colMissingCount t i` — missing-value count of the column at position
`i`, used to translate the positional mask `df.isna().any()`. -/
def colMissingCount (t : Table) (i : Nat) : Nat :=
  (t.rows.filter (fun r => isNoneCell (r.get? i))).length

/-- `df.columns[df.isna().any()].tolist()` (line 22): the names of the
columns holding at least one missing value, in column order. -/
def columns_wnan_of (t : Table) : List String :=
  ((t.cols.enum).filter (fun p => 0 < colMissingCount t p.fst)).map Prod.snd

/-- One printed report line of `drop_cols` (line 87), kept structurally:
`Dropped <count> rows due to nan values in <column> column, corresponding
to a <percent>% of the dataset length`. -/
structure ObsRecord where
  count : Nat
  column : String
  percent : Rat
  deriving DecidableEq, Repr

/-- Round half to even (Python's `round`) to an integer. -/
def roundHalfEven (q : Rat) : Int :=
  if q - ⌊q⌋ < 1/2 then ⌊q⌋
  else if 1/2 < q - ⌊q⌋ then ⌊q⌋ + 1
  else if ⌊q⌋ % 2 = 0 then ⌊q⌋ else ⌊q⌋ + 1

/-- Python's `round(q, 3)`, on the rational idealisation of floats. -/
def round3 (q : Rat) : Rat := (roundHalfEven (q * 1000) : Rat) / 1000

/-- `drop_cols df cols len_df` (lines 64-89): for each column of `cols` in
order, count the live missing values, emit the report record with
percentage `round((num_nan/len_df)*100, 3)`, then drop the rows missing in
that column.  Returns the final table together with the emitted records in
order. -/
def drop_cols (df : Table) (cols : List String) (len_df : Nat) :
    Except PyError (Table × List ObsRecord) :=
  match cols with
  | [] => .ok (df, [])
  | c :: rest =>
    match isnaSum df c with
    | .error e => .error e
    | .ok num_nan =>
      match dropna df c with
      | .error e => .error e
      | .ok df1 =>
        match drop_cols df1 rest len_df with
        | .error e => .error e
        | .ok (df2, recs) =>
          .ok (df2, ⟨num_nan, c, round3 ((num_nan : Rat) / (len_df : Rat) * 100)⟩ :: recs)

/-- A Python runtime value, for the scope model of `id_nan_columns`. -/
inductive PyVal where
  | table : Table → PyVal
  | strList : List String → PyVal
  | nat : Nat → PyVal
  | rat : Rat → PyVal
  | func : String → PyVal
  deriving Repr

/-- Every name resolvable at line 57 of `id_nan_columns` (`for column in
colummns_wnan:`), by Python's LEGB rule: the local names bound by the
parameters and the two prior assignments (lines 54, 56), then — there being
no enclosing function — the module scope (the two imports and the three
`def`s), then representative builtins.  The name `colummns_wnan` is bound
only as a local of `clean_nan_values` (line 22) and appears in none of
these, so looking it up fails, i.e. Python raises `NameError`. -/
def id_nan_columns_scope (df : Table) (columns : List String) (len_df : Nat)
    (max_nans : Rat) : List (String × PyVal) :=
  [("df", .table df), ("columns", .strList columns), ("len_df", .nat len_df),
   ("max_nans", .rat max_nans),
   ("drop_nans", .strList []), ("replacing_nans", .strList []),
   ("np", .func "numpy"), ("pd", .func "pandas"),
   ("clean_nan_values", .func "clean_nan_values"),
   ("id_nan_columns", .func "id_nan_columns"),
   ("drop_cols", .func "drop_cols"),
   ("len", .func "len"), ("round", .func "round"), ("print", .func "print"),
   ("list", .func "list"), ("sum", .func "sum"), ("range", .func "range")]

/-- The loop body of `id_nan_columns` (lines 57-61), run over an iterand
`iter`: a column goes to `replacing_nans` when its missing count exceeds
`len_df * max_nans`, otherwise to `drop_nans`, appended in iteration
order. -/
def id_nan_columns_loop (df : Table) (iter : List String) (len_df : Nat)
    (max_nans : Rat) (replacing_nans drop_nans : List String) :
    Except PyError (List String × List String) :=
  match iter with
  | [] => .ok (replacing_nans, drop_nans)
  | c :: rest =>
    match isnaSum df c with
    | .error e => .error e
    | .ok n =>
      if (len_df : Rat) * max_nans < (n : Rat) then
        id_nan_columns_loop df rest len_df max_nans (replacing_nans ++ [c]) drop_nans
      else
        id_nan_columns_loop df rest len_df max_nans replacing_nans (drop_nans ++ [c])

/-- `id_nan_columns df columns len_df max_nans` (lines 28-62).  The `for`
statement first evaluates its iterand, the free name `colummns_wnan`; the
lookup in `id_nan_columns_scope` fails, so the call raises `NameError`
before the loop body ever runs. -/
def id_nan_columns (df : Table) (columns : List String) (len_df : Nat)
    (max_nans : Rat) : Except PyError (List String × List String) :=
  match List.lookup "colummns_wnan" (id_nan_columns_scope df columns len_df max_nans) with
  | none => .error .nameError
  | some (PyVal.strList it) => id_nan_columns_loop df it len_df max_nans [] []
  | some _ => .error .typeError

/-- The default of the `max_nans` parameter (line 28). -/
def max_nans_default : Rat := 1/20

/-- `clean_nan_values df` (lines 5-26): compute the columns with missing
values and the row count, classify with the default threshold, drop rows
for the drop candidates, and return the cleaned table, the replace
candidates, and the report records. -/
def clean_nan_values (df : Table) :
    Except PyError (Table × List String × List ObsRecord) :=
  match id_nan_columns df (columns_wnan_of df) df.rows.length max_nans_default with
  | .error e => .error e
  | .ok (replacing_nans, drop_nans) =>
    match drop_cols df drop_nans df.rows.length with
    | .error e => .error e
    | .ok (df1, recs) => .ok (df1, replacing_nans, recs)

/-! ## General lemmas about the embedded operations -/

theorem colIndex_eq_none_iff (cols : List String) (c : String) :
    colIndex cols c = none ↔ c ∉ cols := by
  induction cols with
  | nil => simp [colIndex]
  | cons x rest ih =>
    by_cases h : x = c
    · subst h
      simp [colIndex]
    · simp only [colIndex, h, if_false, Option.map_eq_none', ih, List.mem_cons]
      constructor
      · rintro hr (hcx | hcr)
        · exact h hcx.symm
        · exact hr hcr
      · intro hn hcr
        exact hn (Or.inr hcr)

theorem colIndex_isSome_of_mem {cols : List String} {c : String} (h : c ∈ cols) :
    ∃ i, colIndex cols c = some i := by
  rcases hi : colIndex cols c with _ | i
  · exact absurd ((colIndex_eq_none_iff cols c).mp hi) (not_not_intro h)
  · exact ⟨i, rfl⟩

theorem dropna_ok {df : Table} {c : String} {dfa : Table}
    (h : dropna df c = .ok dfa) :
    dfa.cols = df.cols ∧ dfa.rows = df.rows.filter (fun r => !(rowMissing df.cols c r)) := by
  rw [dropna] at h
  rcases hci : colIndex df.cols c with _ | i
  · rw [hci] at h; cases h
  · rw [hci] at h
    simp only [Except.ok.injEq] at h
    rw [h.symm]
    exact ⟨rfl, rfl⟩

/-- Successful `drop_cols` preserves the column labels and filters the rows:
the surviving rows are exactly those of the input missing in none of the
processed columns. -/
theorem drop_cols_ok_spec (cols : List String) :
    ∀ (df : Table) (len : Nat) (df1 : Table) (recs : List ObsRecord),
    drop_cols df cols len = .ok (df1, recs) →
    df1.cols = df.cols ∧
      df1.rows = df.rows.filter (fun r => cols.all (fun c => !(rowMissing df.cols c r))) := by
  induction cols with
  | nil =>
    intro df len df1 recs h
    simp only [drop_cols, Except.ok.injEq, Prod.mk.injEq] at h
    obtain ⟨h1, _⟩ := h
    subst h1
    simp
  | cons c rest ih =>
    intro df len df1 recs h
    rw [drop_cols] at h
    split at h
    · cases h
    split at h
    · cases h
    split at h
    · cases h
    rename_i num_nan hsum dfa hdrop q dfb recsb hrec
    simp only [Except.ok.injEq, Prod.mk.injEq] at h
    obtain ⟨hdf, _⟩ := h
    subst hdf
    obtain ⟨hcols, hrows⟩ := dropna_ok hdrop
    obtain ⟨ihc, ihr⟩ := ih dfa len dfb recsb hrec
    constructor
    · rw [ihc, hcols]
    · rw [ihr, hrows, hcols, List.filter_filter]
      apply List.filter_congr
      intro r _
      simp [Bool.and_comm]



theorem isnaSum_ok_of_mem {df : Table} {c : String} (h : c ∈ df.cols) :
    isnaSum df c = .ok (df.rows.filter (fun r => rowMissing df.cols c r)).length := by
  obtain ⟨i, hi⟩ := colIndex_isSome_of_mem h
  rw [isnaSum, hi]

theorem dropna_ok_of_mem {df : Table} {c : String} (h : c ∈ df.cols) :
    dropna df c = .ok ⟨df.cols, df.rows.filter (fun r => !(rowMissing df.cols c r))⟩ := by
  obtain ⟨i, hi⟩ := colIndex_isSome_of_mem h
  rw [dropna, hi]

theorem drop_cols_ok_of_mem (cols : List String) :
    ∀ (df : Table) (len : Nat), (∀ c ∈ cols, c ∈ df.cols) →
    ∃ out, drop_cols df cols len = .ok out := by
  induction cols with
  | nil =>
    intro df len _
    exact ⟨(df, []), rfl⟩
  | cons c rest ih =>
    intro df len hmem
    have hc : c ∈ df.cols := hmem c (List.mem_cons_self c rest)
    have hrest : ∀ x ∈ rest, x ∈ df.cols := fun x hx => hmem x (List.mem_cons_of_mem c hx)
    obtain ⟨⟨dfb, recsb⟩, hrec⟩ :=
      ih ⟨df.cols, df.rows.filter (fun r => !(rowMissing df.cols c r))⟩ len hrest
    refine ⟨(dfb, ⟨(df.rows.filter (fun r => rowMissing df.cols c r)).length, c,
      round3 (((df.rows.filter (fun r => rowMissing df.cols c r)).length : Rat) / (len : Rat) * 100)⟩ :: recsb), ?_⟩
    simp [drop_cols, isnaSum_ok_of_mem hc, dropna_ok_of_mem hc, hrec]

theorem drop_cols_keyError (cols : List String) :
    ∀ (df : Table) (len : Nat), (∃ c ∈ cols, c ∉ df.cols) →
    drop_cols df cols len = .error .keyError := by
  induction cols with
  | nil =>
    intro df len h
    obtain ⟨c, hc, _⟩ := h
    cases hc
  | cons c rest ih =>
    intro df len h
    by_cases hc : c ∈ df.cols
    · obtain ⟨x, hx, hxabs⟩ := h
      have hxrest : x ∈ rest := by
        rcases List.mem_cons.mp hx with hxc | hxr
        · subst hxc; exact absurd hc hxabs
        · exact hxr
      have hrec := ih ⟨df.cols, df.rows.filter (fun r => !(rowMissing df.cols c r))⟩ len
        ⟨x, hxrest, hxabs⟩
      simp [drop_cols, isnaSum_ok_of_mem hc, dropna_ok_of_mem hc, hrec]
    · have hci : colIndex df.cols c = none := (colIndex_eq_none_iff df.cols c).mpr hc
      rw [drop_cols, isnaSum, hci]



/-- The report records of a successful `drop_cols` run, indexed: the `i`-th
record reports the `i`-th column of the input list, its count is the live
missing count of that column in the table left after the first `i` drops,
and its percentage divides that live count by the `len` argument. -/
theorem drop_cols_records (cols : List String) :
    ∀ (df : Table) (len : Nat) (df1 : Table) (recs : List ObsRecord),
    drop_cols df cols len = .ok (df1, recs) →
    recs.length = cols.length ∧
    ∀ i, i < cols.length →
      ∃ dfi ri n c,
        cols.get? i = some c ∧
        drop_cols df (cols.take i) len = .ok (dfi, ri) ∧
        isnaSum dfi c = .ok n ∧
        recs.get? i = some ⟨n, c, round3 ((n : Rat) / (len : Rat) * 100)⟩ := by
  induction cols with
  | nil =>
    intro df len df1 recs h
    simp only [drop_cols, Except.ok.injEq, Prod.mk.injEq] at h
    obtain ⟨_, h2⟩ := h
    subst h2
    exact ⟨rfl, fun i hi => absurd hi (by simp)⟩
  | cons c rest ih =>
    intro df len df1 recs h
    rw [drop_cols] at h
    split at h
    · cases h
    split at h
    · cases h
    split at h
    · cases h
    rename_i s1 num_nan hsum s2 dfa hdrop s3 dfb recsb hrec
    simp only [Except.ok.injEq, Prod.mk.injEq] at h
    obtain ⟨hdf, hrecs⟩ := h
    subst hdf
    subst hrecs
    obtain ⟨ihlen, ihrec⟩ := ih dfa len dfb recsb hrec
    constructor
    · simp [ihlen]
    · intro i hi
      match i with
      | 0 =>
        exact ⟨df, [], num_nan, c, rfl, rfl, hsum, rfl⟩
      | Nat.succ j =>
        have hj : j < rest.length := by
          simpa using hi
        obtain ⟨dfi, ri, n, cj, hget, htake, hsumj, hrecj⟩ := ihrec j hj
        refine ⟨dfi, ⟨num_nan, c, round3 ((num_nan : Rat) / (len : Rat) * 100)⟩ :: ri, n, cj, ?_, ?_, hsumj, ?_⟩
        · simpa using hget
        · simp [List.take_succ_cons, drop_cols, hsum, hdrop, htake]
        · simpa using hrecj

/-! ## Claim theorems -/

/-- Rounding a rational that is already an integer returns that integer. -/
theorem roundHalfEven_eq_of_eq_intCast {q : Rat} {n : Int} (h : q = (n : Rat)) :
    roundHalfEven q = n := by
  subst h
  simp [roundHalfEven]

/-- A concrete successful run shared by several witnesses below:
dropping for column `a` on a 2-row table whose first row misses `a`. -/
theorem run_two_rows : drop_cols ⟨["a"], [[none], [some 5]]⟩ ["a"] 2 =
    .ok (⟨["a"], [[some 5]]⟩, [⟨1, "a", 50⟩]) := by
  have h50 : round3 ((2 : Rat)⁻¹ * 100) = 50 := by
    rw [round3, roundHalfEven_eq_of_eq_intCast (n := 50000) (by norm_num)]
    norm_num
  simp [drop_cols, isnaSum, dropna, colIndex, rowMissing, isNoneCell, h50]

/-- C2: every invocation of `id_nan_columns` fails: the loop's iterand is the
free name `colummns_wnan` (line 57), bound only as a local of
`clean_nan_values` and resolvable in no local, enclosing, module or builtin
scope of `id_nan_columns`, so the call raises `NameError` instead of using
its `columns` parameter; consequently `clean_nan_values` fails at the
classification step on every table, before `drop_cols` is reached and
before any row is dropped. -/
theorem C2_nameError_always (df t : Table) (columns : List String)
    (len_df : Nat) (max_nans : Rat) :
    List.lookup "colummns_wnan" (id_nan_columns_scope df columns len_df max_nans) = none ∧
    id_nan_columns df columns len_df max_nans = .error .nameError ∧
    clean_nan_values t = .error .nameError :=
  ⟨rfl, rfl, rfl⟩

/-- C1 (code bug): the Column Classifier never returns the claimed stable
partition; already on a one-candidate table it raises `NameError`, because
its loop iterates the unbound name `colummns_wnan` instead of the `columns`
parameter. -/
theorem C1_classifier_never_partitions :
    id_nan_columns ⟨["age"], [[none], [some 3]]⟩ ["age"] 2 max_nans_default =
      .error .nameError :=
  rfl

/-- C3 (code bug): the Orchestrator never returns the pair
`(cleaned table, replace_candidates)`; on a concrete table with one
lightly-missing column it propagates the classifier's `NameError`. -/
theorem C3_orchestrator_fails :
    clean_nan_values ⟨["cabin"], [[none], [some 1], [some 2]]⟩ =
      .error .nameError :=
  rfl

/-- C6 (code bug): a second pipeline run cannot behave as claimed because
already the first run fails; even on a table with no missing value at all
(the shape a cleaned table would have) `clean_nan_values` raises
`NameError` instead of returning it unchanged. -/
theorem C6_rerun_fails :
    clean_nan_values ⟨["age", "fare"], [[some 1, some 2], [some 3, some 4]]⟩ =
      .error .nameError :=
  rfl

/-- C8 (code bug): invoked with `row_count = 0` the classifier never reaches
the degenerate comparison `missing_count > 0`; it raises `NameError` before
the first comparison, so no candidate is routed anywhere. -/
theorem C8_zero_row_count_fails :
    id_nan_columns ⟨["a"], [[none]]⟩ ["a"] 0 max_nans_default =
      .error .nameError :=
  rfl

/-- C4: after a successful `drop_cols` run, every column of the drop list
has zero missing values in the returned table. -/
theorem C4_drop_candidates_fully_cleaned (df : Table) (cols : List String)
    (len : Nat) (c : String) (df1 : Table) (recs : List ObsRecord)
    (hc : c ∈ cols) (h : drop_cols df cols len = .ok (df1, recs)) :
    isnaSum df1 c = .ok 0 := by
  have hmem : c ∈ df.cols := by
    by_contra habs
    rw [drop_cols_keyError cols df len ⟨c, hc, habs⟩] at h
    cases h
  obtain ⟨hcols, hrows⟩ := drop_cols_ok_spec cols df len df1 recs h
  have hmem1 : c ∈ df1.cols := by rw [hcols]; exact hmem
  have hnil : df1.rows.filter (fun r => rowMissing df1.cols c r) = [] := by
    rw [List.filter_eq_nil_iff]
    intro r hr
    rw [hcols]
    rw [hrows] at hr
    obtain ⟨-, hall⟩ := List.mem_filter.mp hr
    have hfc := (List.all_eq_true.mp hall) c hc
    simp only [Bool.not_eq_true'] at hfc
    simp [hfc]
  rw [isnaSum_ok_of_mem hmem1, hnil]
  rfl

theorem C4_witness :
    "a" ∈ (["a"] : List String) ∧
    drop_cols ⟨["a"], [[none], [some 5]]⟩ ["a"] 2 =
      .ok (⟨["a"], [[some 5]]⟩, [⟨1, "a", 50⟩]) ∧
    isnaSum ⟨["a"], [[some 5]]⟩ "a" = .ok 0 :=
  ⟨by simp, run_two_rows,
    C4_drop_candidates_fully_cleaned ⟨["a"], [[none], [some 5]]⟩ ["a"] 2 "a"
      ⟨["a"], [[some 5]]⟩ [⟨1, "a", 50⟩] (by simp) run_two_rows⟩



/-- C5: a successful `drop_cols` run emits exactly one report record per
column, in the input order: the `i`-th record names the `i`-th column `c`
of the list, its count `n` is the live missing count of `c` in the table
left after the drops for the first `i` columns, and its percentage is
`round3 (n / len * 100)` — numerator the live count, denominator always the
`len` argument, the original row count.  The hypothesis `0 < len` confines
the statement to the regime where the rational idealisation of the
percentage agrees with the source's float division. -/
theorem C5_records_live_count_original_denominator (df : Table)
    (cols : List String) (len : Nat) (df1 : Table) (recs : List ObsRecord)
    (_hlen : 0 < len) (h : drop_cols df cols len = .ok (df1, recs)) :
    recs.length = cols.length ∧
    ∀ i, i < cols.length →
      ∃ dfi ri n c,
        cols.get? i = some c ∧
        drop_cols df (cols.take i) len = .ok (dfi, ri) ∧
        isnaSum dfi c = .ok n ∧
        recs.get? i = some ⟨n, c, round3 ((n : Rat) / (len : Rat) * 100)⟩ :=
  drop_cols_records cols df len df1 recs h

theorem C5_witness :
    0 < 4 ∧
    drop_cols ⟨["b"], [[none], [some 1], [some 2], [some 3]]⟩ ["b"] 4 =
      .ok (⟨["b"], [[some 1], [some 2], [some 3]]⟩, [⟨1, "b", 25⟩]) ∧
    ([(⟨1, "b", 25⟩ : ObsRecord)].length = (["b"] : List String).length ∧
      ∀ i, i < (["b"] : List String).length →
        ∃ dfi ri n c,
          (["b"] : List String).get? i = some c ∧
          drop_cols ⟨["b"], [[none], [some 1], [some 2], [some 3]]⟩
            ((["b"] : List String).take i) 4 = .ok (dfi, ri) ∧
          isnaSum dfi c = .ok n ∧
          ([(⟨1, "b", 25⟩ : ObsRecord)] : List ObsRecord).get? i =
            some ⟨n, c, round3 ((n : Rat) / (4 : Rat) * 100)⟩) := by
  have h25 : round3 ((4 : Rat)⁻¹ * 100) = 25 := by
    rw [round3, roundHalfEven_eq_of_eq_intCast (n := 25000) (by norm_num)]
    norm_num
  have hrun : drop_cols ⟨["b"], [[none], [some 1], [some 2], [some 3]]⟩ ["b"] 4 =
      .ok (⟨["b"], [[some 1], [some 2], [some 3]]⟩, [⟨1, "b", 25⟩]) := by
    simp [drop_cols, isnaSum, dropna, colIndex, rowMissing, isNoneCell, h25]
  exact ⟨by decide, hrun,
    C5_records_live_count_original_denominator
      ⟨["b"], [[none], [some 1], [some 2], [some 3]]⟩ ["b"] 4
      ⟨["b"], [[some 1], [some 2], [some 3]]⟩ [⟨1, "b", 25⟩] (by decide) hrun⟩

/-- C7: the Row Dropper removes rows only for missingness in a listed
(drop-candidate) column: in a successful run, every input row absent from
the result was missing in some listed column — necessarily distinct from
any column `rc` outside the list, such as a replace candidate — and every
input row missing in no listed column survives, whatever it holds in
`rc`. -/
theorem C7_removal_only_from_drop_columns (df : Table) (cols : List String)
    (len : Nat) (df1 : Table) (recs : List ObsRecord) (rc : String)
    (hrc : rc ∉ cols) (h : drop_cols df cols len = .ok (df1, recs)) :
    (∀ r ∈ df.rows, r ∉ df1.rows →
      ∃ c ∈ cols, c ≠ rc ∧ rowMissing df.cols c r = true) ∧
    (∀ r ∈ df.rows, (∀ c ∈ cols, rowMissing df.cols c r = false) → r ∈ df1.rows) := by
  obtain ⟨hcols, hrows⟩ := drop_cols_ok_spec cols df len df1 recs h
  constructor
  · intro r hr hnot
    by_contra hno
    push_neg at hno
    apply hnot
    rw [hrows, List.mem_filter]
    refine ⟨hr, List.all_eq_true.mpr ?_⟩
    intro c hcmem
    have hne : c ≠ rc := fun hceq => hrc (hceq ▸ hcmem)
    have hmiss := hno c hcmem hne
    simp only [Bool.not_eq_true] at hmiss
    simp [hmiss]
  · intro r hr hclean
    rw [hrows, List.mem_filter]
    refine ⟨hr, List.all_eq_true.mpr ?_⟩
    intro c hcmem
    simp [hclean c hcmem]

theorem C7_witness :
    "b" ∉ (["a"] : List String) ∧
    drop_cols ⟨["a", "b"], [[none, some 1], [some 2, none], [some 3, some 4], [some 5, some 6]]⟩
      ["a"] 4 =
      .ok (⟨["a", "b"], [[some 2, none], [some 3, some 4], [some 5, some 6]]⟩,
        [⟨1, "a", 25⟩]) ∧
    (∀ r ∈ ([[none, some 1], [some 2, none], [some 3, some 4], [some 5, some 6]] :
        List (List (Option Int))),
      r ∉ ([[some 2, none], [some 3, some 4], [some 5, some 6]] : List (List (Option Int))) →
      ∃ c ∈ (["a"] : List String), c ≠ "b" ∧ rowMissing ["a", "b"] c r = true) := by
  have h25 : round3 ((4 : Rat)⁻¹ * 100) = 25 := by
    rw [round3, roundHalfEven_eq_of_eq_intCast (n := 25000) (by norm_num)]
    norm_num
  have hrun : drop_cols
      ⟨["a", "b"], [[none, some 1], [some 2, none], [some 3, some 4], [some 5, some 6]]⟩
      ["a"] 4 =
      .ok (⟨["a", "b"], [[some 2, none], [some 3, some 4], [some 5, some 6]]⟩,
        [⟨1, "a", 25⟩]) := by
    simp [drop_cols, isnaSum, dropna, colIndex, rowMissing, isNoneCell, h25]
  refine ⟨by simp, hrun, ?_⟩
  exact (C7_removal_only_from_drop_columns
    ⟨["a", "b"], [[none, some 1], [some 2, none], [some 3, some 4], [some 5, some 6]]⟩
    ["a"] 4
    ⟨["a", "b"], [[some 2, none], [some 3, some 4], [some 5, some 6]]⟩
    [⟨1, "a", 25⟩] "b" (by simp) hrun).1

/-- C9: `drop_cols` fails, with the `KeyError` that models the spec's
`ColumnNotFound` and is returned to the caller unhandled, exactly when some
named column is absent from the table; it succeeds exactly when every named
column is present. -/
theorem C9_keyError_iff_absent_column (df : Table) (cols : List String) (len : Nat) :
    (drop_cols df cols len = .error .keyError ↔ ∃ c ∈ cols, c ∉ df.cols) ∧
    ((∃ out, drop_cols df cols len = .ok out) ↔ ∀ c ∈ cols, c ∈ df.cols) := by
  constructor
  · constructor
    · intro herr
      by_contra habs
      push_neg at habs
      obtain ⟨out, hout⟩ := drop_cols_ok_of_mem cols df len habs
      rw [hout] at herr
      cases herr
    · exact drop_cols_keyError cols df len
  · constructor
    · rintro ⟨out, hout⟩ c hc
      by_contra habs
      rw [drop_cols_keyError cols df len ⟨c, hc, habs⟩] at hout
      cases hout
    · exact drop_cols_ok_of_mem cols df len

theorem C9_witness :
    drop_cols ⟨["a"], [[some 1]]⟩ ["zz"] 1 = .error .keyError :=
  (C9_keyError_iff_absent_column ⟨["a"], [[some 1]]⟩ ["zz"] 1).1.mpr
    ⟨"zz", by simp, by simp⟩

/-- C10: on success the Row Dropper only ever removes whole rows: the column
labels are unchanged, the surviving rows form a subsequence of the input
rows in their original order with every cell unchanged, and an empty column
list returns the table unchanged with no report record emitted. -/
theorem C10_only_whole_rows_removed (df : Table) (cols : List String)
    (len : Nat) (df1 : Table) (recs : List ObsRecord)
    (h : drop_cols df cols len = .ok (df1, recs)) :
    df1.cols = df.cols ∧
    List.Sublist df1.rows df.rows ∧
    (∀ r ∈ df1.rows, r ∈ df.rows) ∧
    (cols = [] → df1 = df ∧ recs = []) := by
  obtain ⟨hcols, hrows⟩ := drop_cols_ok_spec cols df len df1 recs h
  refine ⟨hcols, ?_, ?_, ?_⟩
  · rw [hrows]
    exact List.filter_sublist df.rows
  · intro r hr
    rw [hrows] at hr
    exact (List.mem_filter.mp hr).1
  · intro hnil
    subst hnil
    simp only [drop_cols, Except.ok.injEq, Prod.mk.injEq] at h
    exact ⟨h.1.symm, h.2.symm⟩

theorem C10_witness :
    drop_cols ⟨["x"], [[none], [some 1]]⟩ ["x"] 2 =
      .ok (⟨["x"], [[some 1]]⟩, [⟨1, "x", 50⟩]) ∧
    List.Sublist ([[some 1]] : List (List (Option Int))) [[none], [some 1]] := by
  have h50 : round3 ((2 : Rat)⁻¹ * 100) = 50 := by
    rw [round3, roundHalfEven_eq_of_eq_intCast (n := 50000) (by norm_num)]
    norm_num
  have hrun : drop_cols ⟨["x"], [[none], [some 1]]⟩ ["x"] 2 =
      .ok (⟨["x"], [[some 1]]⟩, [⟨1, "x", 50⟩]) := by
    simp [drop_cols, isnaSum, dropna, colIndex, rowMissing, isNoneCell, h50]
  exact ⟨hrun,
    (C10_only_whole_rows_removed ⟨["x"], [[none], [some 1]]⟩ ["x"] 2
      ⟨["x"], [[some 1]]⟩ [⟨1, "x", 50⟩] hrun).2.1⟩

end TitanicUtils
